import Mathlib

/-!
Verification of the IEX pcap decoder (iex_messages.cpp / iex_decoder.cpp)
against its natural-language specification.

The C++ sources are shallowly embedded:
* a packet payload is a `List ℕ` of byte values;
* the unchecked pointer reads (`GetNumeric`, `GetPrice`, `GetString`,
  `GetBlockSize`) become `Option`-valued reads that return `none` exactly
  when the C++ code would dereference out of the payload's bounds;
* `double` arithmetic in `GetPrice` is modelled by round-to-nearest-even
  binary64 over ℚ (unbounded exponent range, which agrees with IEEE-754
  binary64 for the magnitudes that occur here: no overflow, no subnormals);
* the decoder object (`IEXDecoder`) becomes an explicit state record and
  `GetNextMessage` a state-passing function; the pcap reader is an
  injected list of payloads.
-/

/-- Little-endian read of `w` bytes starting at `off`; `none` iff some byte
is out of bounds.  Embeds `GetNumeric<T>` from iex_messages.cpp. -/
def readLE : ℕ → List ℕ → ℕ → Option ℕ
  | 0, _, _ => some 0
  | w + 1, d, off => do
    let b ← d[off]?
    let r ← readLE w d (off + 1)
    pure (b + 256 * r)

/-- Read `n` raw bytes starting at `off`. -/
def readBytes : ℕ → List ℕ → ℕ → Option (List ℕ)
  | 0, _, _ => some []
  | n + 1, d, off => do
    let b ← d[off]?
    let r ← readBytes n d (off + 1)
    pure (b :: r)

/-- Reinterpret an unsigned 64-bit value as a signed two's complement
`int64_t`, as done when a raw 8-byte read is consumed as `int64_t`. -/
def wrap64 (u : ℕ) : ℤ :=
  if u % 2 ^ 64 < 2 ^ 63 then (u % 2 ^ 64 : ℤ) else (u % 2 ^ 64 : ℤ) - 2 ^ 64

/-- The byte predicate of C `isspace` in the C locale restricted to 0..255:
space, tab, LF, VT, FF, CR.  This is the predicate used by the lambda in
`GetString` (iex_messages.cpp line 33). -/
def isWsB (b : ℕ) : Bool :=
  b = 32 || b = 9 || b = 10 || b = 11 || b = 12 || b = 13

/-- Remove the trailing run of `isWsB` bytes; embeds the
`erase(find_if(rbegin,rend,...).base(), end)` idiom of `GetString`. -/
def trimTrailing (l : List ℕ) : List ℕ :=
  (l.reverse.dropWhile isWsB).reverse

/-- Embeds `GetString(data_ptr, offset, length)`: copy `length` bytes and
strip the trailing whitespace run. -/
def GetString (d : List ℕ) (off len : ℕ) : Option (List ℕ) := do
  let raw ← readBytes len d off
  pure (trimTrailing raw)

/-- Round-half-to-even of a rational to an integer. -/
def rhe (x : ℚ) : ℤ :=
  let f := ⌊x⌋
  let r := x - f
  if r < 1 / 2 then f
  else if 1 / 2 < r then f + 1
  else if f % 2 = 0 then f else f + 1

/-- Exponent of the unit in the last place of the binary64 value nearest to
`q` (for normal, non-overflowing magnitudes). -/
def ulpExp (q : ℚ) : ℤ := Int.log 2 |q| - 52

/-- Round a rational to the nearest IEEE-754 binary64 value (ties to even),
with unbounded exponent range; returns the exact rational value of that
binary64 number. -/
def roundB64 (q : ℚ) : ℚ :=
  if q = 0 then 0 else (rhe (q / 2 ^ ulpExp q) : ℚ) * 2 ^ ulpExp q

/-- Value computed by `GetPrice`: the `int64_t` is first converted to
`double` (one binary64 rounding), then divided by `10000.0` (a second
binary64 rounding). -/
def GetPriceVal (n : ℤ) : ℚ := roundB64 (roundB64 (n : ℚ) / 10000)

/-- Embeds `GetPrice(data_ptr, offset)` from iex_messages.cpp. -/
def GetPrice (d : List ℕ) (off : ℕ) : Option ℚ :=
  (readLE 8 d off).map fun u => GetPriceVal (wrap64 u)

/-- Embeds `ValidateTimestamp`: strict comparisons on the `int64_t`. -/
def ValidateTimestamp (ts : ℤ) : Bool :=
  decide (1382659200000000000 < ts) && decide (ts < 4102444800000000000)

/-- The decoded transport header (`IEXTPHeader` fields, iex_messages.h). -/
structure IEXTPHeader where
  version : ℕ
  protocol_id : ℕ
  channel_id : ℕ
  session_id : ℕ
  payload_len : ℕ
  message_count : ℕ
  stream_offset : ℕ
  first_msg_sq_num : ℕ
  send_time : ℕ
deriving DecidableEq

/-- Embeds `IEXTPHeader::Decode`: reads every field, then reports failure
(`false`) iff `version ≠ 1`; `none` iff a read is out of bounds. -/
def IEXTPHeaderDecode (d : List ℕ) : Option (IEXTPHeader × Bool) := do
  let version ← readLE 1 d 0
  let protocol_id ← readLE 2 d 2
  let channel_id ← readLE 4 d 4
  let session_id ← readLE 4 d 8
  let payload_len ← readLE 2 d 12
  let message_count ← readLE 2 d 14
  let stream_offset ← readLE 8 d 16
  let first_msg_sq_num ← readLE 8 d 24
  let send_time ← readLE 8 d 32
  pure (⟨version, protocol_id, channel_id, session_id, payload_len,
         message_count, stream_offset, first_msg_sq_num, send_time⟩,
        version = 1)

/-- The closed set of decoded application messages (one constructor per
C++ message struct; `mtype` stores the `MessageType` byte passed to the
constructors that take one). -/
inductive IEXMessage where
  | systemEvent (system_event : ℕ) (timestamp : ℕ)
  | securityDirectory (flags : ℕ) (timestamp : ℕ) (symbol : List ℕ)
      (round_lot_size : ℕ) (adjusted_POC_price : ℚ) (LULD_tier : ℕ)
  | tradingStatus (trading_status : ℕ) (timestamp : ℕ) (symbol : List ℕ)
      (reason : List ℕ)
  | operationalHaltStatus (operational_halt_status : ℕ) (timestamp : ℕ)
      (symbol : List ℕ)
  | shortSalePriceTestStatus (short_sale_test_in_effect : Bool)
      (timestamp : ℕ) (symbol : List ℕ) (detail : ℕ)
  | quoteUpdate (flags : ℕ) (timestamp : ℕ) (symbol : List ℕ)
      (bid_size : ℕ) (bid_price : ℚ) (ask_size : ℕ) (ask_price : ℚ)
  | tradeReport (mtype : ℕ) (flags : ℕ) (timestamp : ℕ) (symbol : List ℕ)
      (size : ℕ) (price : ℚ) (trade_id : ℕ)
  | officialPrice (price_type : ℕ) (timestamp : ℕ) (symbol : List ℕ)
      (price : ℚ)
  | auctionInformation (auction_type : ℕ) (timestamp : ℕ) (symbol : List ℕ)
      (paired_shares : ℕ) (reference_price : ℚ)
      (indicative_clearing_price : ℚ) (imbalance_shares : ℕ)
      (imbalance_side : ℕ) (extension_number : ℕ)
      (scheduled_auction_time : ℕ) (auction_book_clearing_price : ℚ)
      (collar_reference_price : ℚ) (lower_auction_collar : ℚ)
      (upper_auction_collar : ℚ)
  | priceLevelUpdate (mtype : ℕ) (flags : ℕ) (timestamp : ℕ)
      (symbol : List ℕ) (size : ℕ) (price : ℚ)
  | securityEvent (mtype : ℕ) (security_event : ℕ) (timestamp : ℕ)
      (symbol : List ℕ)
deriving DecidableEq

/-- The stored `message_type` byte of a decoded message (what
`GetMessageType` returns). -/
def IEXMessage.mtypeOf : IEXMessage → ℕ
  | .systemEvent _ _ => 0x53
  | .securityDirectory _ _ _ _ _ _ => 0x44
  | .tradingStatus _ _ _ _ => 0x48
  | .operationalHaltStatus _ _ _ => 0x4F
  | .shortSalePriceTestStatus _ _ _ _ => 0x50
  | .quoteUpdate _ _ _ _ _ _ _ => 0x51
  | .tradeReport m _ _ _ _ _ _ => m
  | .officialPrice _ _ _ _ => 0x58
  | .auctionInformation _ _ _ _ _ _ _ _ _ _ _ _ _ _ => 0x41
  | .priceLevelUpdate m _ _ _ _ _ => m
  | .securityEvent m _ _ _ => m

/-- The decoded timestamp field (raw unsigned 64-bit value). -/
def IEXMessage.tsOf : IEXMessage → ℕ
  | .systemEvent _ t => t
  | .securityDirectory _ t _ _ _ _ => t
  | .tradingStatus _ t _ _ => t
  | .operationalHaltStatus _ t _ => t
  | .shortSalePriceTestStatus _ t _ _ => t
  | .quoteUpdate _ t _ _ _ _ _ => t
  | .tradeReport _ _ t _ _ _ _ => t
  | .officialPrice _ t _ _ => t
  | .auctionInformation _ t _ _ _ _ _ _ _ _ _ _ _ _ => t
  | .priceLevelUpdate _ _ t _ _ _ => t
  | .securityEvent _ _ t _ => t

/-- Embeds `SystemEventMessage::Decode`. -/
def DecodeSystemEvent (d : List ℕ) (off : ℕ) : Option (IEXMessage × Bool) := do
  let code ← readLE 1 d (off + 1)
  let ts ← readLE 8 d (off + 2)
  pure (.systemEvent code ts, ValidateTimestamp (wrap64 ts))

/-- Embeds `SecurityDirectoryMessage::Decode`. -/
def DecodeSecurityDirectory (d : List ℕ) (off : ℕ) : Option (IEXMessage × Bool) := do
  let flags ← readLE 1 d (off + 1)
  let ts ← readLE 8 d (off + 2)
  let symbol ← GetString d (off + 10) 8
  let round_lot_size ← readLE 4 d (off + 18)
  let poc ← GetPrice d (off + 22)
  let luld ← readLE 1 d (off + 30)
  pure (.securityDirectory flags ts symbol round_lot_size poc luld,
        ValidateTimestamp (wrap64 ts))

/-- Embeds `TradingStatusMessage::Decode`. -/
def DecodeTradingStatus (d : List ℕ) (off : ℕ) : Option (IEXMessage × Bool) := do
  let status ← readLE 1 d (off + 1)
  let ts ← readLE 8 d (off + 2)
  let symbol ← GetString d (off + 10) 8
  let reason ← GetString d (off + 18) 4
  pure (.tradingStatus status ts symbol reason, ValidateTimestamp (wrap64 ts))

/-- Embeds `OperationalHaltStatusMessage::Decode`. -/
def DecodeOperationalHalt (d : List ℕ) (off : ℕ) : Option (IEXMessage × Bool) := do
  let status ← readLE 1 d (off + 1)
  let ts ← readLE 8 d (off + 2)
  let symbol ← GetString d (off + 10) 8
  pure (.operationalHaltStatus status ts symbol, ValidateTimestamp (wrap64 ts))

/-- Embeds `ShortSalePriceTestStatusMessage::Decode`. -/
def DecodeShortSale (d : List ℕ) (off : ℕ) : Option (IEXMessage × Bool) := do
  let inEffect ← readLE 1 d (off + 1)
  let ts ← readLE 8 d (off + 2)
  let symbol ← GetString d (off + 10) 8
  let detail ← readLE 1 d (off + 18)
  pure (.shortSalePriceTestStatus (inEffect ≠ 0) ts symbol detail,
        ValidateTimestamp (wrap64 ts))

/-- Embeds `QuoteUpdateMessage::Decode` (note: `ask_size` is read at
offset 38 and `ask_price` at offset 30, exactly as the C++ does). -/
def DecodeQuoteUpdate (d : List ℕ) (off : ℕ) : Option (IEXMessage × Bool) := do
  let flags ← readLE 1 d (off + 1)
  let ts ← readLE 8 d (off + 2)
  let symbol ← GetString d (off + 10) 8
  let bid_size ← readLE 4 d (off + 18)
  let bid_price ← GetPrice d (off + 22)
  let ask_size ← readLE 4 d (off + 38)
  let ask_price ← GetPrice d (off + 30)
  pure (.quoteUpdate flags ts symbol bid_size bid_price ask_size ask_price,
        ValidateTimestamp (wrap64 ts))

/-- Embeds `TradeReportMessage::Decode` (used for both TradeReport and
TradeBreak; `mtype` is the constructor argument). -/
def DecodeTradeReport (mtype : ℕ) (d : List ℕ) (off : ℕ) : Option (IEXMessage × Bool) := do
  let flags ← readLE 1 d (off + 1)
  let ts ← readLE 8 d (off + 2)
  let symbol ← GetString d (off + 10) 8
  let size ← readLE 4 d (off + 18)
  let price ← GetPrice d (off + 22)
  let trade_id ← readLE 8 d (off + 30)
  pure (.tradeReport mtype flags ts symbol size price trade_id,
        ValidateTimestamp (wrap64 ts))

/-- Embeds `OfficialPriceMessage::Decode`. -/
def DecodeOfficialPrice (d : List ℕ) (off : ℕ) : Option (IEXMessage × Bool) := do
  let price_type ← readLE 1 d (off + 1)
  let ts ← readLE 8 d (off + 2)
  let symbol ← GetString d (off + 10) 8
  let price ← GetPrice d (off + 18)
  pure (.officialPrice price_type ts symbol price, ValidateTimestamp (wrap64 ts))

/-- Embeds `AuctionInformationMessage::Decode`. -/
def DecodeAuctionInformation (d : List ℕ) (off : ℕ) : Option (IEXMessage × Bool) := do
  let auction_type ← readLE 1 d (off + 1)
  let ts ← readLE 8 d (off + 2)
  let symbol ← GetString d (off + 10) 8
  let paired_shares ← readLE 4 d (off + 18)
  let reference_price ← GetPrice d (off + 22)
  let indicative ← GetPrice d (off + 30)
  let imbalance_shares ← readLE 4 d (off + 38)
  let imbalance_side ← readLE 1 d (off + 42)
  let extension_number ← readLE 1 d (off + 43)
  let sched ← readLE 4 d (off + 44)
  let book_clearing ← GetPrice d (off + 48)
  let collar_ref ← GetPrice d (off + 56)
  let lower_collar ← GetPrice d (off + 64)
  let upper_collar ← GetPrice d (off + 72)
  pure (.auctionInformation auction_type ts symbol paired_shares
          reference_price indicative imbalance_shares imbalance_side
          extension_number sched book_clearing collar_ref lower_collar
          upper_collar,
        ValidateTimestamp (wrap64 ts))

/-- Embeds `PriceLevelUpdateMessage::Decode` (buy and sell variants share
it; `mtype` is the constructor argument). -/
def DecodePriceLevelUpdate (mtype : ℕ) (d : List ℕ) (off : ℕ) : Option (IEXMessage × Bool) := do
  let flags ← readLE 1 d (off + 1)
  let ts ← readLE 8 d (off + 2)
  let symbol ← GetString d (off + 10) 8
  let size ← readLE 4 d (off + 18)
  let price ← GetPrice d (off + 22)
  pure (.priceLevelUpdate mtype flags ts symbol size price,
        ValidateTimestamp (wrap64 ts))

/-- Embeds `SecurityEventMessage::Decode`. -/
def DecodeSecurityEvent (mtype : ℕ) (d : List ℕ) (off : ℕ) : Option (IEXMessage × Bool) := do
  let sec ← readLE 1 d (off + 1)
  let ts ← readLE 8 d (off + 2)
  let symbol ← GetString d (off + 10) 8
  pure (.securityEvent mtype sec ts symbol, ValidateTimestamp (wrap64 ts))

/-- The dynamic type (plus stored `message_type`) of the object built by
`IEXMessageFactory` before `Decode` is invoked on it. -/
inductive MsgKind where
  | sysEvent
  | secDir
  | tradingStat
  | opHalt
  | shortSale
  | quote
  | tradeRpt (mtype : ℕ)
  | official
  | auction
  | priceLevel (mtype : ℕ)
  | secEvt (mtype : ℕ)
deriving DecidableEq

/-- Embeds the `switch` of `IEXMessageFactory` (iex_messages.cpp): maps the
tag byte to the message object it constructs, `none` for the `default`
branch (NULL). -/
def IEXMessageFactory (tag : ℕ) : Option MsgKind :=
  if tag = 0x51 then some .quote
  else if tag = 0x48 then some .tradingStat
  else if tag = 0x53 then some .sysEvent
  else if tag = 0x44 then some .secDir
  else if tag = 0x4F then some .opHalt
  else if tag = 0x50 then some .shortSale
  else if tag = 0x54 then some (.tradeRpt 0x54)
  else if tag = 0x42 then some (.tradeRpt 0x42)
  else if tag = 0x58 then some .official
  else if tag = 0x41 then some .auction
  else if tag = 0x38 then some (.priceLevel 0x38)
  else if tag = 0x35 then some (.priceLevel 0x35)
  else if tag = 0x45 then some (.secEvt 0x45)
  else none

/-- Invoke the `Decode` virtual of the factory-built object. -/
def decodeKind : MsgKind → List ℕ → ℕ → Option (IEXMessage × Bool)
  | .sysEvent, d, off => DecodeSystemEvent d off
  | .secDir, d, off => DecodeSecurityDirectory d off
  | .tradingStat, d, off => DecodeTradingStatus d off
  | .opHalt, d, off => DecodeOperationalHalt d off
  | .shortSale, d, off => DecodeShortSale d off
  | .quote, d, off => DecodeQuoteUpdate d off
  | .tradeRpt m, d, off => DecodeTradeReport m d off
  | .official, d, off => DecodeOfficialPrice d off
  | .auction, d, off => DecodeAuctionInformation d off
  | .priceLevel m, d, off => DecodePriceLevelUpdate m d off
  | .secEvt m, d, off => DecodeSecurityEvent m d off

/-- Return codes of `IEXDecoder` (iex_decoder.h), plus `oobRead`, which
marks the executions in which the C++ code dereferences memory outside the
packet payload (undefined behaviour; no `ReturnCode` exists for it). -/
inductive RC where
  | success
  | failedDecodingPacket
  | unknownMessageType
  | endOfStream
  | oobRead
deriving DecidableEq

/-- The mutable state of an opened `IEXDecoder`: the packets still to be
pulled from the pcap reader, the current packet payload (`packet_ptr_`,
`none` = null, with `packet_len_` its length), the block cursor
`block_offset_`, and `last_decoded_header_`. -/
structure DecoderState where
  packets : List (List ℕ)
  cur : Option (List ℕ)
  blockOffset : ℕ
  lastHeader : IEXTPHeader
deriving DecidableEq

/-- Embeds the do–while loop at the top of `GetNextMessage`: repeatedly run
`ParseNextPacket` (pop a payload, set `packet_ptr_`/`packet_len_`, reset
`block_offset_` to 40, decode the header into `last_decoded_header_`)
until the decoded header has `payload_len ≠ 0` or an error stops the loop.
Arguments: remaining packets, current `last_decoded_header_`, current
`packet_ptr_`, current `block_offset_`.  Returns the loop's return code
and the updated fields in the same order. -/
def pullPackets : List (List ℕ) → IEXTPHeader → Option (List ℕ) → ℕ →
    RC × List (List ℕ) × IEXTPHeader × Option (List ℕ) × ℕ
  | [], h, cur, bo => (.endOfStream, [], h, cur, bo)
  | p :: rest, h, _, _ =>
    match IEXTPHeaderDecode p with
    | none => (.oobRead, rest, h, some p, 40)
    | some (hdr, ok) =>
      if ok then
        if hdr.payload_len = 0 then pullPackets rest hdr (some p) 40
        else (.success, rest, hdr, some p, 40)
      else (.failedDecodingPacket, rest, hdr, some p, 40)

/-- Embeds the block-decoding part of `GetNextMessage` (iex_decoder.cpp
lines 92–121): read the 2-byte block length at `block_offset_`, advance
the cursor by `block_len + 2`, null `packet_ptr_` when the cursor has
reached `packet_len_`, then dispatch the first message-data byte through
the factory and run the variant's `Decode`. -/
def decodeCurrentBlock (p : List ℕ) (s : DecoderState) :
    RC × Option IEXMessage × DecoderState :=
  match readLE 2 p s.blockOffset with
  | none => (.oobRead, none, s)
  | some blockLen =>
    let bo2 := s.blockOffset + blockLen + 2
    let s' : DecoderState :=
      { s with blockOffset := bo2, cur := if p.length ≤ bo2 then none else s.cur }
    match p[s.blockOffset + 2]? with
    | none => (.oobRead, none, s')
    | some tag =>
      match IEXMessageFactory tag with
      | none => (.unknownMessageType, none, s')
      | some kind =>
        match decodeKind kind p (s.blockOffset + 2) with
        | none => (.oobRead, none, s')
        | some (msg, ok) =>
          if ok then (.success, some msg, s')
          else (.failedDecodingPacket, some msg, s')

/-- Embeds `IEXDecoder::GetNextMessage` on an opened decoder: if
`packet_ptr_` is null, pull packets (skipping empty heartbeat payloads)
and on success decode the first block of the new packet; otherwise decode
the block at the current cursor. -/
def GetNextMessage (s : DecoderState) : RC × Option IEXMessage × DecoderState :=
  match s.cur with
  | some p => decodeCurrentBlock p s
  | none =>
    let r := pullPackets s.packets s.lastHeader none s.blockOffset
    let s' : DecoderState :=
      { packets := r.2.1, lastHeader := r.2.2.1, cur := r.2.2.2.1,
        blockOffset := r.2.2.2.2 }
    match r.1 with
    | .success =>
      match s'.cur with
      | some p => decodeCurrentBlock p s'
      | none => (.success, none, s')
    | rc => (rc, none, s')

/-- The thirteen tag bytes the factory recognises. -/
def knownTags : List ℕ :=
  [0x51, 0x48, 0x53, 0x44, 0x4F, 0x50, 0x54, 0x42, 0x58, 0x41, 0x38, 0x35, 0x45]

/-- The trailing strip described by the claim's own words for symbol
fields: remove exactly trailing space, tab, CR and LF, and no others. -/
def isWs4 (b : ℕ) : Bool := b = 32 || b = 9 || b = 13 || b = 10

/-- Trailing-whitespace strip as worded by the claim (four characters). -/
def claimTrim4 (l : List ℕ) : List ℕ := (l.reverse.dropWhile isWs4).reverse

theorem readBytes_length : ∀ (n : ℕ) (d : List ℕ) (off : ℕ) (raw : List ℕ),
    readBytes n d off = some raw → raw.length = n := by
  intro n
  induction n with
  | zero => intro d off raw h; simp [readBytes] at h; simp [← h]
  | succ m ih =>
    intro d off raw h
    cases hb : d[off]? with
    | none => simp [readBytes, hb] at h
    | some b =>
      cases hr : readBytes m d (off + 1) with
      | none => simp [readBytes, hb, hr] at h
      | some r =>
        unfold readBytes at h
        rw [hb, hr] at h
        have h2 : some (b :: r) = some raw := h
        cases h2
        simp [ih d (off + 1) r hr]

theorem head?_dropWhile_false {p : ℕ → Bool} :
    ∀ (l : List ℕ) (x : ℕ), (l.dropWhile p).head? = some x → p x = false := by
  intro l
  induction l with
  | nil => intro x h; simp [List.dropWhile] at h
  | cons a t ih =>
    intro x h
    by_cases hp : p a
    · rw [List.dropWhile_cons_of_pos hp] at h
      exact ih x h
    · rw [List.dropWhile_cons_of_neg hp] at h
      simp only [List.head?_cons, Option.some.injEq] at h
      simp [← h, Bool.eq_false_iff.2 hp]

theorem trimTrailing_split (l : List ℕ) :
    ∃ t, l = trimTrailing l ++ t ∧ ∀ c ∈ t, isWsB c = true := by
  refine ⟨(l.reverse.takeWhile isWsB).reverse, ?_, ?_⟩
  · have h := List.takeWhile_append_dropWhile (p := isWsB) (l := l.reverse)
    have h2 := congrArg List.reverse h
    rw [List.reverse_append, List.reverse_reverse] at h2
    exact h2.symm
  · intro c hc
    rw [List.mem_reverse] at hc
    exact List.mem_takeWhile_imp hc

theorem trimTrailing_getLast (l : List ℕ) (x : ℕ)
    (h : (trimTrailing l).getLast? = some x) : isWsB x = false := by
  rw [trimTrailing, List.getLast?_reverse] at h
  exact head?_dropWhile_false _ x h

theorem trimTrailing_length_le (l : List ℕ) :
    (trimTrailing l).length ≤ l.length := by
  obtain ⟨t, ht, -⟩ := trimTrailing_split l
  have h2 := congrArg List.length ht
  rw [List.length_append] at h2
  omega

/-- Claim C7: the decoded symbol string is the span's bytes with exactly
the trailing space, tab, CR and LF characters removed and no others.
Refuted: `GetString` uses C `isspace`, which also strips vertical tab
(0x0B) and form feed (0x0C); on the span "AB" followed by six vertical
tabs the code produces "AB" while the claim's strip keeps all six 0x0B
bytes. -/
theorem C7_counterexample :
    GetString [65, 66, 11, 11, 11, 11, 11, 11] 0 8 = some [65, 66] ∧
    claimTrim4 [65, 66, 11, 11, 11, 11, 11, 11] = [65, 66, 11, 11, 11, 11, 11, 11] ∧
    some [65, 66] ≠ some [65, 66, 11, 11, 11, 11, 11, 11] := by decide

/-- Claim C7 (amended): for every 8-byte span read as a symbol field, the
decoded string is the span's bytes with exactly the trailing characters of
the C `isspace` class (space, tab, LF, VT, FF, CR) removed and no others:
what is removed is a run of such characters, the result ends in a
non-whitespace byte (so in particular it has no trailing whitespace in the
claim's four-character sense either), leading whitespace is kept (the
result is an initial run of the span), its length is at most 8, and the
empty string is a legal result. -/
theorem C7_symbol_trim (d : List ℕ) (off : ℕ) (raw : List ℕ)
    (h : readBytes 8 d off = some raw) :
    GetString d off 8 = some (trimTrailing raw) ∧
    (∃ t, raw = trimTrailing raw ++ t ∧ ∀ c ∈ t, isWsB c = true) ∧
    (∀ x, (trimTrailing raw).getLast? = some x → isWsB x = false) ∧
    (trimTrailing raw).length ≤ 8 := by
  refine ⟨?_, trimTrailing_split raw, fun x hx => trimTrailing_getLast raw x hx, ?_⟩
  · simp [GetString, h]
  · have h1 := trimTrailing_length_le raw
    have h2 := readBytes_length 8 d off raw h
    omega

/-- Concrete instance of `C7_symbol_trim` on the span "ZIEXT   ". -/
theorem C7_symbol_trim_witness :
    GetString [90, 73, 69, 88, 84, 32, 32, 32] 0 8 = some (trimTrailing [90, 73, 69, 88, 84, 32, 32, 32]) ∧
    (∃ t, [90, 73, 69, 88, 84, 32, 32, 32] = trimTrailing [90, 73, 69, 88, 84, 32, 32, 32] ++ t ∧
      ∀ c ∈ t, isWsB c = true) ∧
    (∀ x, (trimTrailing [90, 73, 69, 88, 84, 32, 32, 32]).getLast? = some x → isWsB x = false) ∧
    (trimTrailing [90, 73, 69, 88, 84, 32, 32, 32]).length ≤ 8 :=
  C7_symbol_trim [90, 73, 69, 88, 84, 32, 32, 32] 0 [90, 73, 69, 88, 84, 32, 32, 32] (by decide)


/-- Inversion for `DecodeSystemEvent`: a successful decode yields a message of the
matching constructor, whose stored type byte and validation flag are
determined by the decoded fields. -/
theorem DecodeSystemEvent_shape (d : List ℕ) (off : ℕ) (m : IEXMessage)
    (ok : Bool) (h : DecodeSystemEvent d off = some (m, ok)) :
    IEXMessage.mtypeOf m = 0x53 ∧
    ok = ValidateTimestamp (wrap64 (IEXMessage.tsOf m)) := by
  rw [DecodeSystemEvent] at h
  obtain ⟨a0, -, h⟩ := Option.bind_eq_some'.mp h
  obtain ⟨a1, -, h⟩ := Option.bind_eq_some'.mp h
  injection h with h
  injection h with h1 h2
  subst h1
  subst h2
  exact ⟨by trivial, by trivial⟩


/-- Inversion for `DecodeSecurityDirectory`: a successful decode yields a message of the
matching constructor, whose stored type byte and validation flag are
determined by the decoded fields. -/
theorem DecodeSecurityDirectory_shape (d : List ℕ) (off : ℕ) (m : IEXMessage)
    (ok : Bool) (h : DecodeSecurityDirectory d off = some (m, ok)) :
    IEXMessage.mtypeOf m = 0x44 ∧
    ok = ValidateTimestamp (wrap64 (IEXMessage.tsOf m)) := by
  rw [DecodeSecurityDirectory] at h
  obtain ⟨a0, -, h⟩ := Option.bind_eq_some'.mp h
  obtain ⟨a1, -, h⟩ := Option.bind_eq_some'.mp h
  obtain ⟨a2, -, h⟩ := Option.bind_eq_some'.mp h
  obtain ⟨a3, -, h⟩ := Option.bind_eq_some'.mp h
  obtain ⟨a4, -, h⟩ := Option.bind_eq_some'.mp h
  obtain ⟨a5, -, h⟩ := Option.bind_eq_some'.mp h
  injection h with h
  injection h with h1 h2
  subst h1
  subst h2
  exact ⟨by trivial, by trivial⟩


/-- Inversion for `DecodeTradingStatus`: a successful decode yields a message of the
matching constructor, whose stored type byte and validation flag are
determined by the decoded fields. -/
theorem DecodeTradingStatus_shape (d : List ℕ) (off : ℕ) (m : IEXMessage)
    (ok : Bool) (h : DecodeTradingStatus d off = some (m, ok)) :
    IEXMessage.mtypeOf m = 0x48 ∧
    ok = ValidateTimestamp (wrap64 (IEXMessage.tsOf m)) := by
  rw [DecodeTradingStatus] at h
  obtain ⟨a0, -, h⟩ := Option.bind_eq_some'.mp h
  obtain ⟨a1, -, h⟩ := Option.bind_eq_some'.mp h
  obtain ⟨a2, -, h⟩ := Option.bind_eq_some'.mp h
  obtain ⟨a3, -, h⟩ := Option.bind_eq_some'.mp h
  injection h with h
  injection h with h1 h2
  subst h1
  subst h2
  exact ⟨by trivial, by trivial⟩


/-- Inversion for `DecodeOperationalHalt`: a successful decode yields a message of the
matching constructor, whose stored type byte and validation flag are
determined by the decoded fields. -/
theorem DecodeOperationalHalt_shape (d : List ℕ) (off : ℕ) (m : IEXMessage)
    (ok : Bool) (h : DecodeOperationalHalt d off = some (m, ok)) :
    IEXMessage.mtypeOf m = 0x4F ∧
    ok = ValidateTimestamp (wrap64 (IEXMessage.tsOf m)) := by
  rw [DecodeOperationalHalt] at h
  obtain ⟨a0, -, h⟩ := Option.bind_eq_some'.mp h
  obtain ⟨a1, -, h⟩ := Option.bind_eq_some'.mp h
  obtain ⟨a2, -, h⟩ := Option.bind_eq_some'.mp h
  injection h with h
  injection h with h1 h2
  subst h1
  subst h2
  exact ⟨by trivial, by trivial⟩


/-- Inversion for `DecodeShortSale`: a successful decode yields a message of the
matching constructor, whose stored type byte and validation flag are
determined by the decoded fields. -/
theorem DecodeShortSale_shape (d : List ℕ) (off : ℕ) (m : IEXMessage)
    (ok : Bool) (h : DecodeShortSale d off = some (m, ok)) :
    IEXMessage.mtypeOf m = 0x50 ∧
    ok = ValidateTimestamp (wrap64 (IEXMessage.tsOf m)) := by
  rw [DecodeShortSale] at h
  obtain ⟨a0, -, h⟩ := Option.bind_eq_some'.mp h
  obtain ⟨a1, -, h⟩ := Option.bind_eq_some'.mp h
  obtain ⟨a2, -, h⟩ := Option.bind_eq_some'.mp h
  obtain ⟨a3, -, h⟩ := Option.bind_eq_some'.mp h
  injection h with h
  injection h with h1 h2
  subst h1
  subst h2
  exact ⟨by trivial, by trivial⟩


/-- Inversion for `DecodeQuoteUpdate`: a successful decode yields a message of the
matching constructor, whose stored type byte and validation flag are
determined by the decoded fields. -/
theorem DecodeQuoteUpdate_shape (d : List ℕ) (off : ℕ) (m : IEXMessage)
    (ok : Bool) (h : DecodeQuoteUpdate d off = some (m, ok)) :
    IEXMessage.mtypeOf m = 0x51 ∧
    ok = ValidateTimestamp (wrap64 (IEXMessage.tsOf m)) := by
  rw [DecodeQuoteUpdate] at h
  obtain ⟨a0, -, h⟩ := Option.bind_eq_some'.mp h
  obtain ⟨a1, -, h⟩ := Option.bind_eq_some'.mp h
  obtain ⟨a2, -, h⟩ := Option.bind_eq_some'.mp h
  obtain ⟨a3, -, h⟩ := Option.bind_eq_some'.mp h
  obtain ⟨a4, -, h⟩ := Option.bind_eq_some'.mp h
  obtain ⟨a5, -, h⟩ := Option.bind_eq_some'.mp h
  obtain ⟨a6, -, h⟩ := Option.bind_eq_some'.mp h
  injection h with h
  injection h with h1 h2
  subst h1
  subst h2
  exact ⟨by trivial, by trivial⟩


/-- Inversion for `DecodeTradeReport`: a successful decode yields a message of the
matching constructor, whose stored type byte and validation flag are
determined by the decoded fields. -/
theorem DecodeTradeReport_shape (d : List ℕ) (off : ℕ) (mt : ℕ) (m : IEXMessage)
    (ok : Bool) (h : DecodeTradeReport mt d off = some (m, ok)) :
    IEXMessage.mtypeOf m = mt ∧
    ok = ValidateTimestamp (wrap64 (IEXMessage.tsOf m)) := by
  rw [DecodeTradeReport] at h
  obtain ⟨a0, -, h⟩ := Option.bind_eq_some'.mp h
  obtain ⟨a1, -, h⟩ := Option.bind_eq_some'.mp h
  obtain ⟨a2, -, h⟩ := Option.bind_eq_some'.mp h
  obtain ⟨a3, -, h⟩ := Option.bind_eq_some'.mp h
  obtain ⟨a4, -, h⟩ := Option.bind_eq_some'.mp h
  obtain ⟨a5, -, h⟩ := Option.bind_eq_some'.mp h
  injection h with h
  injection h with h1 h2
  subst h1
  subst h2
  exact ⟨by trivial, by trivial⟩


/-- Inversion for `DecodeOfficialPrice`: a successful decode yields a message of the
matching constructor, whose stored type byte and validation flag are
determined by the decoded fields. -/
theorem DecodeOfficialPrice_shape (d : List ℕ) (off : ℕ) (m : IEXMessage)
    (ok : Bool) (h : DecodeOfficialPrice d off = some (m, ok)) :
    IEXMessage.mtypeOf m = 0x58 ∧
    ok = ValidateTimestamp (wrap64 (IEXMessage.tsOf m)) := by
  rw [DecodeOfficialPrice] at h
  obtain ⟨a0, -, h⟩ := Option.bind_eq_some'.mp h
  obtain ⟨a1, -, h⟩ := Option.bind_eq_some'.mp h
  obtain ⟨a2, -, h⟩ := Option.bind_eq_some'.mp h
  obtain ⟨a3, -, h⟩ := Option.bind_eq_some'.mp h
  injection h with h
  injection h with h1 h2
  subst h1
  subst h2
  exact ⟨by trivial, by trivial⟩


/-- Inversion for `DecodeAuctionInformation`: a successful decode yields a message of the
matching constructor, whose stored type byte and validation flag are
determined by the decoded fields. -/
theorem DecodeAuctionInformation_shape (d : List ℕ) (off : ℕ) (m : IEXMessage)
    (ok : Bool) (h : DecodeAuctionInformation d off = some (m, ok)) :
    IEXMessage.mtypeOf m = 0x41 ∧
    ok = ValidateTimestamp (wrap64 (IEXMessage.tsOf m)) := by
  rw [DecodeAuctionInformation] at h
  obtain ⟨a0, -, h⟩ := Option.bind_eq_some'.mp h
  obtain ⟨a1, -, h⟩ := Option.bind_eq_some'.mp h
  obtain ⟨a2, -, h⟩ := Option.bind_eq_some'.mp h
  obtain ⟨a3, -, h⟩ := Option.bind_eq_some'.mp h
  obtain ⟨a4, -, h⟩ := Option.bind_eq_some'.mp h
  obtain ⟨a5, -, h⟩ := Option.bind_eq_some'.mp h
  obtain ⟨a6, -, h⟩ := Option.bind_eq_some'.mp h
  obtain ⟨a7, -, h⟩ := Option.bind_eq_some'.mp h
  obtain ⟨a8, -, h⟩ := Option.bind_eq_some'.mp h
  obtain ⟨a9, -, h⟩ := Option.bind_eq_some'.mp h
  obtain ⟨a10, -, h⟩ := Option.bind_eq_some'.mp h
  obtain ⟨a11, -, h⟩ := Option.bind_eq_some'.mp h
  obtain ⟨a12, -, h⟩ := Option.bind_eq_some'.mp h
  obtain ⟨a13, -, h⟩ := Option.bind_eq_some'.mp h
  injection h with h
  injection h with h1 h2
  subst h1
  subst h2
  exact ⟨by trivial, by trivial⟩


/-- Inversion for `DecodePriceLevelUpdate`: a successful decode yields a message of the
matching constructor, whose stored type byte and validation flag are
determined by the decoded fields. -/
theorem DecodePriceLevelUpdate_shape (d : List ℕ) (off : ℕ) (mt : ℕ) (m : IEXMessage)
    (ok : Bool) (h : DecodePriceLevelUpdate mt d off = some (m, ok)) :
    IEXMessage.mtypeOf m = mt ∧
    ok = ValidateTimestamp (wrap64 (IEXMessage.tsOf m)) := by
  rw [DecodePriceLevelUpdate] at h
  obtain ⟨a0, -, h⟩ := Option.bind_eq_some'.mp h
  obtain ⟨a1, -, h⟩ := Option.bind_eq_some'.mp h
  obtain ⟨a2, -, h⟩ := Option.bind_eq_some'.mp h
  obtain ⟨a3, -, h⟩ := Option.bind_eq_some'.mp h
  obtain ⟨a4, -, h⟩ := Option.bind_eq_some'.mp h
  injection h with h
  injection h with h1 h2
  subst h1
  subst h2
  exact ⟨by trivial, by trivial⟩


/-- Inversion for `DecodeSecurityEvent`: a successful decode yields a message of the
matching constructor, whose stored type byte and validation flag are
determined by the decoded fields. -/
theorem DecodeSecurityEvent_shape (d : List ℕ) (off : ℕ) (mt : ℕ) (m : IEXMessage)
    (ok : Bool) (h : DecodeSecurityEvent mt d off = some (m, ok)) :
    IEXMessage.mtypeOf m = mt ∧
    ok = ValidateTimestamp (wrap64 (IEXMessage.tsOf m)) := by
  rw [DecodeSecurityEvent] at h
  obtain ⟨a0, -, h⟩ := Option.bind_eq_some'.mp h
  obtain ⟨a1, -, h⟩ := Option.bind_eq_some'.mp h
  obtain ⟨a2, -, h⟩ := Option.bind_eq_some'.mp h
  injection h with h
  injection h with h1 h2
  subst h1
  subst h2
  exact ⟨by trivial, by trivial⟩

/-- Claim C3: every variant's `Decode` fails on the timestamp iff the
timestamp lies outside `[1382659200000000000, 4102444800000000000)`, so
the lower bound itself decodes successfully.  Refuted: `ValidateTimestamp`
uses a strict `>` against the lower bound, so a SystemEvent block whose
decoded timestamp is exactly 1382659200000000000 — inside the claim's
half-open window — fails to decode. -/
theorem C3_counterexample :
    DecodeSystemEvent [0x53, 0x4F, 0, 0, 109, 125, 55, 49, 48, 19] 0 =
      some (.systemEvent 79 1382659200000000000, false) ∧
    (1382659200000000000 : ℤ) ≤ wrap64 1382659200000000000 ∧
    wrap64 1382659200000000000 < 4102444800000000000 := by decide

/-- Claim C3 (amended): for every message variant, `Decode` fails (returns
`false`, surfaced as the decode error) iff the decoded timestamp, read as
a signed 64-bit value, lies outside the OPEN window
`(1382659200000000000, 4102444800000000000)`: the lower bound itself is
rejected, while the upper end is exclusive exactly as the claim states. -/
theorem C3_timestamp_window (k : MsgKind) (d : List ℕ) (off : ℕ)
    (m : IEXMessage) (ok : Bool) (h : decodeKind k d off = some (m, ok)) :
    (ok = false ↔
      (wrap64 m.tsOf ≤ 1382659200000000000 ∨
       4102444800000000000 ≤ wrap64 m.tsOf)) := by
  have hok : ok = ValidateTimestamp (wrap64 m.tsOf) := by
    cases k with
    | sysEvent => exact (DecodeSystemEvent_shape _ _ _ _ h).2
    | secDir => exact (DecodeSecurityDirectory_shape _ _ _ _ h).2
    | tradingStat => exact (DecodeTradingStatus_shape _ _ _ _ h).2
    | opHalt => exact (DecodeOperationalHalt_shape _ _ _ _ h).2
    | shortSale => exact (DecodeShortSale_shape _ _ _ _ h).2
    | quote => exact (DecodeQuoteUpdate_shape _ _ _ _ h).2
    | tradeRpt mt => exact (DecodeTradeReport_shape _ _ mt _ _ h).2
    | official => exact (DecodeOfficialPrice_shape _ _ _ _ h).2
    | auction => exact (DecodeAuctionInformation_shape _ _ _ _ h).2
    | priceLevel mt => exact (DecodePriceLevelUpdate_shape _ _ mt _ _ h).2
    | secEvt mt => exact (DecodeSecurityEvent_shape _ _ mt _ _ h).2
  subst hok
  simp only [ValidateTimestamp, Bool.and_eq_false_iff, decide_eq_false_iff_not]
  omega

/-- Concrete instance of `C3_timestamp_window`: a SystemEvent whose
timestamp 1729382256910270464 lies inside the open window decodes with
`ok = true`. -/
theorem C3_timestamp_window_witness :
    ((true : Bool) = false ↔
      (wrap64 1729382256910270464 ≤ 1382659200000000000 ∨
       4102444800000000000 ≤ wrap64 1729382256910270464)) :=
  C3_timestamp_window .sysEvent [0x53, 5, 0, 0, 0, 0, 0, 0, 0, 24] 0
    (.systemEvent 5 1729382256910270464) true (by decide)

theorem readLE_isSome : ∀ (w : ℕ) (d : List ℕ) (off : ℕ),
    off + w ≤ d.length → (readLE w d off).isSome = true := by
  intro w
  induction w with
  | zero => intro d off _; simp [readLE]
  | succ v ih =>
    intro d off h
    have h1 : off < d.length := by omega
    have h2 := ih d (off + 1) (by omega)
    obtain ⟨r, hr⟩ := Option.isSome_iff_exists.mp h2
    simp [readLE, List.getElem?_eq_getElem h1, hr]

theorem readBytes_isSome : ∀ (n : ℕ) (d : List ℕ) (off : ℕ),
    off + n ≤ d.length → (readBytes n d off).isSome = true := by
  intro n
  induction n with
  | zero => intro d off _; simp [readBytes]
  | succ v ih =>
    intro d off h
    have h1 : off < d.length := by omega
    have h2 := ih d (off + 1) (by omega)
    obtain ⟨r, hr⟩ := Option.isSome_iff_exists.mp h2
    simp [readBytes, List.getElem?_eq_getElem h1, hr]

theorem GetString_isSome (d : List ℕ) (off len : ℕ)
    (h : off + len ≤ d.length) : (GetString d off len).isSome = true := by
  obtain ⟨raw, hraw⟩ := Option.isSome_iff_exists.mp (readBytes_isSome len d off h)
  simp [GetString, hraw]

theorem GetPrice_isSome (d : List ℕ) (off : ℕ)
    (h : off + 8 ≤ d.length) : (GetPrice d off).isSome = true := by
  obtain ⟨u, hu⟩ := Option.isSome_iff_exists.mp (readLE_isSome 8 d off h)
  simp [GetPrice, hu]

theorem DecodeSystemEvent_isSome (d : List ℕ) (off : ℕ) (h : off + 80 ≤ d.length) :
    (DecodeSystemEvent d off).isSome = true := by
  obtain ⟨a0, h0⟩ := Option.isSome_iff_exists.mp (readLE_isSome 1 d (off + 1) (by omega))
  obtain ⟨a1, h1⟩ := Option.isSome_iff_exists.mp (readLE_isSome 8 d (off + 2) (by omega))
  simp [DecodeSystemEvent, h0, h1]


theorem DecodeSecurityDirectory_isSome (d : List ℕ) (off : ℕ) (h : off + 80 ≤ d.length) :
    (DecodeSecurityDirectory d off).isSome = true := by
  obtain ⟨a0, h0⟩ := Option.isSome_iff_exists.mp (readLE_isSome 1 d (off + 1) (by omega))
  obtain ⟨a1, h1⟩ := Option.isSome_iff_exists.mp (readLE_isSome 8 d (off + 2) (by omega))
  obtain ⟨a2, h2⟩ := Option.isSome_iff_exists.mp (GetString_isSome d (off + 10) 8 (by omega))
  obtain ⟨a3, h3⟩ := Option.isSome_iff_exists.mp (readLE_isSome 4 d (off + 18) (by omega))
  obtain ⟨a4, h4⟩ := Option.isSome_iff_exists.mp (GetPrice_isSome d (off + 22) (by omega))
  obtain ⟨a5, h5⟩ := Option.isSome_iff_exists.mp (readLE_isSome 1 d (off + 30) (by omega))
  simp [DecodeSecurityDirectory, h0, h1, h2, h3, h4, h5]


theorem DecodeTradingStatus_isSome (d : List ℕ) (off : ℕ) (h : off + 80 ≤ d.length) :
    (DecodeTradingStatus d off).isSome = true := by
  obtain ⟨a0, h0⟩ := Option.isSome_iff_exists.mp (readLE_isSome 1 d (off + 1) (by omega))
  obtain ⟨a1, h1⟩ := Option.isSome_iff_exists.mp (readLE_isSome 8 d (off + 2) (by omega))
  obtain ⟨a2, h2⟩ := Option.isSome_iff_exists.mp (GetString_isSome d (off + 10) 8 (by omega))
  obtain ⟨a3, h3⟩ := Option.isSome_iff_exists.mp (GetString_isSome d (off + 18) 4 (by omega))
  simp [DecodeTradingStatus, h0, h1, h2, h3]


theorem DecodeOperationalHalt_isSome (d : List ℕ) (off : ℕ) (h : off + 80 ≤ d.length) :
    (DecodeOperationalHalt d off).isSome = true := by
  obtain ⟨a0, h0⟩ := Option.isSome_iff_exists.mp (readLE_isSome 1 d (off + 1) (by omega))
  obtain ⟨a1, h1⟩ := Option.isSome_iff_exists.mp (readLE_isSome 8 d (off + 2) (by omega))
  obtain ⟨a2, h2⟩ := Option.isSome_iff_exists.mp (GetString_isSome d (off + 10) 8 (by omega))
  simp [DecodeOperationalHalt, h0, h1, h2]


theorem DecodeShortSale_isSome (d : List ℕ) (off : ℕ) (h : off + 80 ≤ d.length) :
    (DecodeShortSale d off).isSome = true := by
  obtain ⟨a0, h0⟩ := Option.isSome_iff_exists.mp (readLE_isSome 1 d (off + 1) (by omega))
  obtain ⟨a1, h1⟩ := Option.isSome_iff_exists.mp (readLE_isSome 8 d (off + 2) (by omega))
  obtain ⟨a2, h2⟩ := Option.isSome_iff_exists.mp (GetString_isSome d (off + 10) 8 (by omega))
  obtain ⟨a3, h3⟩ := Option.isSome_iff_exists.mp (readLE_isSome 1 d (off + 18) (by omega))
  simp [DecodeShortSale, h0, h1, h2, h3]


theorem DecodeQuoteUpdate_isSome (d : List ℕ) (off : ℕ) (h : off + 80 ≤ d.length) :
    (DecodeQuoteUpdate d off).isSome = true := by
  obtain ⟨a0, h0⟩ := Option.isSome_iff_exists.mp (readLE_isSome 1 d (off + 1) (by omega))
  obtain ⟨a1, h1⟩ := Option.isSome_iff_exists.mp (readLE_isSome 8 d (off + 2) (by omega))
  obtain ⟨a2, h2⟩ := Option.isSome_iff_exists.mp (GetString_isSome d (off + 10) 8 (by omega))
  obtain ⟨a3, h3⟩ := Option.isSome_iff_exists.mp (readLE_isSome 4 d (off + 18) (by omega))
  obtain ⟨a4, h4⟩ := Option.isSome_iff_exists.mp (GetPrice_isSome d (off + 22) (by omega))
  obtain ⟨a5, h5⟩ := Option.isSome_iff_exists.mp (readLE_isSome 4 d (off + 38) (by omega))
  obtain ⟨a6, h6⟩ := Option.isSome_iff_exists.mp (GetPrice_isSome d (off + 30) (by omega))
  simp [DecodeQuoteUpdate, h0, h1, h2, h3, h4, h5, h6]


theorem DecodeTradeReport_isSome (d : List ℕ) (off : ℕ) (mt : ℕ) (h : off + 80 ≤ d.length) :
    (DecodeTradeReport mt d off).isSome = true := by
  obtain ⟨a0, h0⟩ := Option.isSome_iff_exists.mp (readLE_isSome 1 d (off + 1) (by omega))
  obtain ⟨a1, h1⟩ := Option.isSome_iff_exists.mp (readLE_isSome 8 d (off + 2) (by omega))
  obtain ⟨a2, h2⟩ := Option.isSome_iff_exists.mp (GetString_isSome d (off + 10) 8 (by omega))
  obtain ⟨a3, h3⟩ := Option.isSome_iff_exists.mp (readLE_isSome 4 d (off + 18) (by omega))
  obtain ⟨a4, h4⟩ := Option.isSome_iff_exists.mp (GetPrice_isSome d (off + 22) (by omega))
  obtain ⟨a5, h5⟩ := Option.isSome_iff_exists.mp (readLE_isSome 8 d (off + 30) (by omega))
  simp [DecodeTradeReport, h0, h1, h2, h3, h4, h5]


theorem DecodeOfficialPrice_isSome (d : List ℕ) (off : ℕ) (h : off + 80 ≤ d.length) :
    (DecodeOfficialPrice d off).isSome = true := by
  obtain ⟨a0, h0⟩ := Option.isSome_iff_exists.mp (readLE_isSome 1 d (off + 1) (by omega))
  obtain ⟨a1, h1⟩ := Option.isSome_iff_exists.mp (readLE_isSome 8 d (off + 2) (by omega))
  obtain ⟨a2, h2⟩ := Option.isSome_iff_exists.mp (GetString_isSome d (off + 10) 8 (by omega))
  obtain ⟨a3, h3⟩ := Option.isSome_iff_exists.mp (GetPrice_isSome d (off + 18) (by omega))
  simp [DecodeOfficialPrice, h0, h1, h2, h3]


theorem DecodeAuctionInformation_isSome (d : List ℕ) (off : ℕ) (h : off + 80 ≤ d.length) :
    (DecodeAuctionInformation d off).isSome = true := by
  obtain ⟨a0, h0⟩ := Option.isSome_iff_exists.mp (readLE_isSome 1 d (off + 1) (by omega))
  obtain ⟨a1, h1⟩ := Option.isSome_iff_exists.mp (readLE_isSome 8 d (off + 2) (by omega))
  obtain ⟨a2, h2⟩ := Option.isSome_iff_exists.mp (GetString_isSome d (off + 10) 8 (by omega))
  obtain ⟨a3, h3⟩ := Option.isSome_iff_exists.mp (readLE_isSome 4 d (off + 18) (by omega))
  obtain ⟨a4, h4⟩ := Option.isSome_iff_exists.mp (GetPrice_isSome d (off + 22) (by omega))
  obtain ⟨a5, h5⟩ := Option.isSome_iff_exists.mp (GetPrice_isSome d (off + 30) (by omega))
  obtain ⟨a6, h6⟩ := Option.isSome_iff_exists.mp (readLE_isSome 4 d (off + 38) (by omega))
  obtain ⟨a7, h7⟩ := Option.isSome_iff_exists.mp (readLE_isSome 1 d (off + 42) (by omega))
  obtain ⟨a8, h8⟩ := Option.isSome_iff_exists.mp (readLE_isSome 1 d (off + 43) (by omega))
  obtain ⟨a9, h9⟩ := Option.isSome_iff_exists.mp (readLE_isSome 4 d (off + 44) (by omega))
  obtain ⟨a10, h10⟩ := Option.isSome_iff_exists.mp (GetPrice_isSome d (off + 48) (by omega))
  obtain ⟨a11, h11⟩ := Option.isSome_iff_exists.mp (GetPrice_isSome d (off + 56) (by omega))
  obtain ⟨a12, h12⟩ := Option.isSome_iff_exists.mp (GetPrice_isSome d (off + 64) (by omega))
  obtain ⟨a13, h13⟩ := Option.isSome_iff_exists.mp (GetPrice_isSome d (off + 72) (by omega))
  simp [DecodeAuctionInformation, h0, h1, h2, h3, h4, h5, h6, h7, h8, h9, h10, h11, h12, h13]


theorem DecodePriceLevelUpdate_isSome (d : List ℕ) (off : ℕ) (mt : ℕ) (h : off + 80 ≤ d.length) :
    (DecodePriceLevelUpdate mt d off).isSome = true := by
  obtain ⟨a0, h0⟩ := Option.isSome_iff_exists.mp (readLE_isSome 1 d (off + 1) (by omega))
  obtain ⟨a1, h1⟩ := Option.isSome_iff_exists.mp (readLE_isSome 8 d (off + 2) (by omega))
  obtain ⟨a2, h2⟩ := Option.isSome_iff_exists.mp (GetString_isSome d (off + 10) 8 (by omega))
  obtain ⟨a3, h3⟩ := Option.isSome_iff_exists.mp (readLE_isSome 4 d (off + 18) (by omega))
  obtain ⟨a4, h4⟩ := Option.isSome_iff_exists.mp (GetPrice_isSome d (off + 22) (by omega))
  simp [DecodePriceLevelUpdate, h0, h1, h2, h3, h4]


theorem DecodeSecurityEvent_isSome (d : List ℕ) (off : ℕ) (mt : ℕ) (h : off + 80 ≤ d.length) :
    (DecodeSecurityEvent mt d off).isSome = true := by
  obtain ⟨a0, h0⟩ := Option.isSome_iff_exists.mp (readLE_isSome 1 d (off + 1) (by omega))
  obtain ⟨a1, h1⟩ := Option.isSome_iff_exists.mp (readLE_isSome 8 d (off + 2) (by omega))
  obtain ⟨a2, h2⟩ := Option.isSome_iff_exists.mp (GetString_isSome d (off + 10) 8 (by omega))
  simp [DecodeSecurityEvent, h0, h1, h2]

/-- Every variant decode succeeds (performs no out-of-bounds read) once 80
bytes of message data from `off` lie inside the payload. -/
theorem decodeKind_isSome (k : MsgKind) (d : List ℕ) (off : ℕ)
    (h : off + 80 ≤ d.length) : (decodeKind k d off).isSome = true := by
  cases k with
  | sysEvent => exact DecodeSystemEvent_isSome d off h
  | secDir => exact DecodeSecurityDirectory_isSome d off h
  | tradingStat => exact DecodeTradingStatus_isSome d off h
  | opHalt => exact DecodeOperationalHalt_isSome d off h
  | shortSale => exact DecodeShortSale_isSome d off h
  | quote => exact DecodeQuoteUpdate_isSome d off h
  | tradeRpt mt => exact DecodeTradeReport_isSome d off mt h
  | official => exact DecodeOfficialPrice_isSome d off h
  | auction => exact DecodeAuctionInformation_isSome d off h
  | priceLevel mt => exact DecodePriceLevelUpdate_isSome d off mt h
  | secEvt mt => exact DecodeSecurityEvent_isSome d off mt h

theorem IEXMessageFactory_of_not_mem (t : ℕ) (hmem : t ∉ knownTags) :
    IEXMessageFactory t = none := by
  simp only [knownTags, List.mem_cons, List.not_mem_nil, or_false,
    not_or] at hmem
  obtain ⟨n1, n2, n3, n4, n5, n6, n7, n8, n9, n10, n11, n12, n13⟩ := hmem
  simp [IEXMessageFactory, n1, n2, n3, n4, n5, n6, n7, n8, n9, n10, n11,
    n12, n13]

theorem IEXMessageFactory_mem (t : ℕ) (k : MsgKind)
    (h : IEXMessageFactory t = some k) : t ∈ knownTags := by
  by_contra hmem
  rw [IEXMessageFactory_of_not_mem t hmem] at h
  exact Option.noConfusion h

theorem IEXMessageFactory_none_iff (t : ℕ) :
    IEXMessageFactory t = none ↔ t ∉ knownTags := by
  constructor
  · intro h hmem
    simp only [knownTags, List.mem_cons, List.not_mem_nil, or_false] at hmem
    rcases hmem with rfl | rfl | rfl | rfl | rfl | rfl | rfl | rfl | rfl |
      rfl | rfl | rfl | rfl <;> simp [IEXMessageFactory] at h
  · exact IEXMessageFactory_of_not_mem t

theorem decodeKind_mtype (t : ℕ) (k : MsgKind) (d : List ℕ) (off : ℕ)
    (m : IEXMessage) (ok : Bool) (hf : IEXMessageFactory t = some k)
    (hd : decodeKind k d off = some (m, ok)) : IEXMessage.mtypeOf m = t := by
  have hmem := IEXMessageFactory_mem t k hf
  simp only [knownTags, List.mem_cons, List.not_mem_nil, or_false] at hmem
  rcases hmem with rfl | rfl | rfl | rfl | rfl | rfl | rfl | rfl | rfl |
    rfl | rfl | rfl | rfl
  · simp [IEXMessageFactory] at hf
    subst hf; exact (DecodeQuoteUpdate_shape _ _ _ _ hd).1
  · simp [IEXMessageFactory] at hf
    subst hf; exact (DecodeTradingStatus_shape _ _ _ _ hd).1
  · simp [IEXMessageFactory] at hf
    subst hf; exact (DecodeSystemEvent_shape _ _ _ _ hd).1
  · simp [IEXMessageFactory] at hf
    subst hf; exact (DecodeSecurityDirectory_shape _ _ _ _ hd).1
  · simp [IEXMessageFactory] at hf
    subst hf; exact (DecodeOperationalHalt_shape _ _ _ _ hd).1
  · simp [IEXMessageFactory] at hf
    subst hf; exact (DecodeShortSale_shape _ _ _ _ hd).1
  · simp [IEXMessageFactory] at hf
    subst hf; exact (DecodeTradeReport_shape _ _ _ _ _ hd).1
  · simp [IEXMessageFactory] at hf
    subst hf; exact (DecodeTradeReport_shape _ _ _ _ _ hd).1
  · simp [IEXMessageFactory] at hf
    subst hf; exact (DecodeOfficialPrice_shape _ _ _ _ hd).1
  · simp [IEXMessageFactory] at hf
    subst hf; exact (DecodeAuctionInformation_shape _ _ _ _ hd).1
  · simp [IEXMessageFactory] at hf
    subst hf; exact (DecodePriceLevelUpdate_shape _ _ _ _ _ hd).1
  · simp [IEXMessageFactory] at hf
    subst hf; exact (DecodePriceLevelUpdate_shape _ _ _ _ _ hd).1
  · simp [IEXMessageFactory] at hf
    subst hf; exact (DecodeSecurityEvent_shape _ _ _ _ _ hd).1

theorem decodeCurrentBlock_msg (p : List ℕ) (s : DecoderState) (rc : RC)
    (m : IEXMessage) (s' : DecoderState)
    (h : decodeCurrentBlock p s = (rc, some m, s')) :
    ∃ t k ok, p[s.blockOffset + 2]? = some t ∧ IEXMessageFactory t = some k ∧
      decodeKind k p (s.blockOffset + 2) = some (m, ok) := by
  rw [decodeCurrentBlock] at h
  split at h
  · simp at h
  next blockLen hbl =>
    split at h
    · simp at h
    next tag htag =>
      split at h
      · simp at h
      next kind hkind =>
        split at h
        · simp at h
        next msg ok hdec =>
          split at h <;>
            (simp only [Prod.mk.injEq] at h
             obtain ⟨-, hm, -⟩ := h
             cases hm
             exact ⟨tag, kind, ok, htag, hkind, hdec⟩)


theorem GetNextMessage_msg (s : DecoderState) (rc : RC) (m : IEXMessage)
    (s' : DecoderState) (h : GetNextMessage s = (rc, some m, s')) :
    ∃ p s0, decodeCurrentBlock p s0 = (rc, some m, s') := by
  rw [GetNextMessage] at h
  split at h
  · exact ⟨_, _, h⟩
  · dsimp only at h
    split at h
    · split at h
      · exact ⟨_, _, h⟩
      · simp at h
    · simp at h

/-- Claim C9: tag bytes 0x00 (transport header / StreamHeader) and 0xFF
(NoData) get no constructor from the factory; a block starting with either
byte makes `GetNextMessage` report the unknown-message-type error, and the
iterator never emits a message whose stored type is StreamHeader or
NoData, even though both are members of the `MessageType` enumeration. -/
theorem C9_no_header_or_nodata :
    IEXMessageFactory 0x00 = none ∧ IEXMessageFactory 0xFF = none ∧
    (∀ (s : DecoderState) (p : List ℕ) (t : ℕ),
      s.cur = some p → p[s.blockOffset + 2]? = some t →
      t = 0x00 ∨ t = 0xFF → (GetNextMessage s).1 = RC.unknownMessageType) ∧
    (∀ (s s' : DecoderState) (rc : RC) (m : IEXMessage),
      GetNextMessage s = (rc, some m, s') →
      IEXMessage.mtypeOf m ≠ 0x00 ∧ IEXMessage.mtypeOf m ≠ 0xFF) := by
  refine ⟨by decide, by decide, ?_, ?_⟩
  · intro s p t hcur htag hval
    have hlt : s.blockOffset + 2 < p.length := by
      by_contra hge
      rw [List.getElem?_eq_none (by omega)] at htag
      exact Option.noConfusion htag
    obtain ⟨bl, hbl⟩ :=
      Option.isSome_iff_exists.mp (readLE_isSome 2 p s.blockOffset (by omega))
    have hfac : IEXMessageFactory t = none := by
      rcases hval with rfl | rfl <;> decide
    simp only [GetNextMessage, hcur, decodeCurrentBlock, hbl, htag, hfac]
  · intro s s' rc m h
    obtain ⟨p, s0, hdec⟩ := GetNextMessage_msg s rc m s' h
    obtain ⟨t, k, ok, htag, hfac, hdk⟩ :=
      decodeCurrentBlock_msg p s0 rc m s' hdec
    have hmt := decodeKind_mtype t k p (s0.blockOffset + 2) m ok hfac hdk
    have hmem := IEXMessageFactory_mem t k hfac
    rw [hmt]
    simp only [knownTags, List.mem_cons, List.not_mem_nil, or_false] at hmem
    rcases hmem with rfl | rfl | rfl | rfl | rfl | rfl | rfl | rfl | rfl |
      rfl | rfl | rfl | rfl <;> exact ⟨by decide, by decide⟩

/-- Concrete instance of `C9_no_header_or_nodata`: a block whose message
data starts with 0x00 in an active segment yields the
unknown-message-type error. -/
theorem C9_no_header_or_nodata_witness :
    (GetNextMessage ⟨[], some [8, 0, 0x00, 0, 0, 0, 0, 0, 0, 0], 0,
        ⟨1, 0, 0, 0, 8, 1, 0, 0, 0⟩⟩).1 = RC.unknownMessageType :=
  C9_no_header_or_nodata.2.2.1
    ⟨[], some [8, 0, 0x00, 0, 0, 0, 0, 0, 0, 0], 0, ⟨1, 0, 0, 0, 8, 1, 0, 0, 0⟩⟩
    [8, 0, 0x00, 0, 0, 0, 0, 0, 0, 0] 0x00 rfl (by decide) (Or.inl rfl)

/-- After a successful block-length read, `decodeCurrentBlock` always
produces the advanced state — cursor moved past the block, segment marked
exhausted iff the cursor reached the packet length — whatever the return
code, and never reports end-of-stream. -/
theorem decodeCurrentBlock_state (p : List ℕ) (s : DecoderState) (bl : ℕ)
    (hbl : readLE 2 p s.blockOffset = some bl) :
    (decodeCurrentBlock p s).2.2 =
      { s with
          blockOffset := s.blockOffset + bl + 2
          cur := if p.length ≤ s.blockOffset + bl + 2 then none else s.cur } ∧
    (decodeCurrentBlock p s).1 ≠ RC.endOfStream := by
  cases htag : p[s.blockOffset + 2]? with
  | none =>
    simp only [decodeCurrentBlock, hbl, htag]
    exact ⟨by trivial, fun h => RC.noConfusion h⟩
  | some tag =>
    cases hfac : IEXMessageFactory tag with
    | none =>
      simp only [decodeCurrentBlock, hbl, htag, hfac]
      exact ⟨by trivial, fun h => RC.noConfusion h⟩
    | some kind =>
      cases hdk : decodeKind kind p (s.blockOffset + 2) with
      | none =>
        simp only [decodeCurrentBlock, hbl, htag, hfac, hdk]
        exact ⟨by trivial, fun h => RC.noConfusion h⟩
      | some pr =>
        obtain ⟨msg, ok⟩ := pr
        simp only [decodeCurrentBlock, hbl, htag, hfac, hdk]
        split <;> exact ⟨by trivial, fun h => RC.noConfusion h⟩

theorem decodeCurrentBlock_preserves (p : List ℕ) (s : DecoderState) :
    (decodeCurrentBlock p s).2.2.lastHeader = s.lastHeader ∧
    (decodeCurrentBlock p s).2.2.packets = s.packets := by
  cases hbl : readLE 2 p s.blockOffset with
  | none =>
    simp only [decodeCurrentBlock, hbl]
    exact ⟨by trivial, by trivial⟩
  | some bl =>
    cases htag : p[s.blockOffset + 2]? with
    | none =>
      simp only [decodeCurrentBlock, hbl, htag]
      exact ⟨by trivial, by trivial⟩
    | some tag =>
      cases hfac : IEXMessageFactory tag with
      | none =>
        simp only [decodeCurrentBlock, hbl, htag, hfac]
        exact ⟨by trivial, by trivial⟩
      | some kind =>
        cases hdk : decodeKind kind p (s.blockOffset + 2) with
        | none =>
          simp only [decodeCurrentBlock, hbl, htag, hfac, hdk]
          exact ⟨by trivial, by trivial⟩
        | some pr =>
          obtain ⟨msg, ok⟩ := pr
          simp only [decodeCurrentBlock, hbl, htag, hfac, hdk]
          split <;> exact ⟨by trivial, by trivial⟩

/-- Core state effect of a `GetNextMessage` call on an active segment:
cursor advanced by `block_length + 2`, never end-of-stream, exhausted iff
the cursor reached the packet length. -/
theorem GetNextMessage_active_advance (s : DecoderState) (p : List ℕ)
    (bl : ℕ) (hcur : s.cur = some p)
    (hbl : readLE 2 p s.blockOffset = some bl) :
    (GetNextMessage s).2.2.blockOffset = s.blockOffset + bl + 2 ∧
    (GetNextMessage s).1 ≠ RC.endOfStream ∧
    ((GetNextMessage s).2.2.cur = none ↔ p.length ≤ s.blockOffset + bl + 2) := by
  simp only [GetNextMessage, hcur]
  obtain ⟨hst, hrc⟩ := decodeCurrentBlock_state p s bl hbl
  rw [hst]
  by_cases hend : p.length ≤ s.blockOffset + bl + 2
  · simp only [hend, if_true]
    exact ⟨by trivial, hrc, by simp [hend]⟩
  · simp only [hend, if_false, hcur]
    exact ⟨by trivial, hrc, by simp [hend]⟩

/-- Claim C10: on every call that enters an active segment the block
cursor is advanced by `block_length + 2` (hence by at least 2, even for a
zero-length block) before factory dispatch and variant decode, regardless
of the call's outcome; the segment is left active iff the cursor is still
short of the packet length, and while it stays active the remaining-byte
measure strictly decreases by at least 2, so the walk of a finite segment
terminates and no block is decoded twice. -/
theorem C10_cursor_advances (s : DecoderState) (p : List ℕ) (bl : ℕ)
    (hcur : s.cur = some p) (hbl : readLE 2 p s.blockOffset = some bl) :
    (GetNextMessage s).2.2.blockOffset = s.blockOffset + bl + 2 ∧
    s.blockOffset + 2 ≤ (GetNextMessage s).2.2.blockOffset ∧
    (GetNextMessage s).1 ≠ RC.endOfStream ∧
    ((GetNextMessage s).2.2.cur = none ↔ p.length ≤ s.blockOffset + bl + 2) ∧
    ((GetNextMessage s).2.2.cur ≠ none →
      p.length - (s.blockOffset + bl + 2) + 2 ≤ p.length - s.blockOffset) := by
  obtain ⟨hadv, hrc, hiff⟩ := GetNextMessage_active_advance s p bl hcur hbl
  refine ⟨hadv, by omega, hrc, hiff, fun hact => ?_⟩
  have : ¬ p.length ≤ s.blockOffset + bl + 2 := fun hle => hact (hiff.mpr hle)
  omega

/-- Concrete instance of `C10_cursor_advances` on a zero-length block at
cursor 40 of a 52-byte packet. -/
theorem C10_cursor_advances_witness :
    (GetNextMessage ⟨[], some ([1, 0, 0, 0, 0, 0, 0, 0, 0, 0, 0, 0, 12, 0] ++
        List.replicate 26 0 ++ [0, 0, 0x53, 0, 0, 0, 0, 0, 0, 0, 0, 24]), 40,
        ⟨1, 0, 0, 0, 12, 0, 0, 0, 0⟩⟩).2.2.blockOffset = 40 + 0 + 2 ∧
    40 + 2 ≤ (GetNextMessage ⟨[], some ([1, 0, 0, 0, 0, 0, 0, 0, 0, 0, 0, 0, 12, 0] ++
        List.replicate 26 0 ++ [0, 0, 0x53, 0, 0, 0, 0, 0, 0, 0, 0, 24]), 40,
        ⟨1, 0, 0, 0, 12, 0, 0, 0, 0⟩⟩).2.2.blockOffset :=
  ⟨(C10_cursor_advances ⟨[], some ([1, 0, 0, 0, 0, 0, 0, 0, 0, 0, 0, 0, 12, 0] ++
      List.replicate 26 0 ++ [0, 0, 0x53, 0, 0, 0, 0, 0, 0, 0, 0, 24]), 40,
      ⟨1, 0, 0, 0, 12, 0, 0, 0, 0⟩⟩
      ([1, 0, 0, 0, 0, 0, 0, 0, 0, 0, 0, 0, 12, 0] ++
      List.replicate 26 0 ++ [0, 0, 0x53, 0, 0, 0, 0, 0, 0, 0, 0, 24]) 0 rfl
      (by decide)).1,
   (C10_cursor_advances ⟨[], some ([1, 0, 0, 0, 0, 0, 0, 0, 0, 0, 0, 0, 12, 0] ++
      List.replicate 26 0 ++ [0, 0, 0x53, 0, 0, 0, 0, 0, 0, 0, 0, 24]), 40,
      ⟨1, 0, 0, 0, 12, 0, 0, 0, 0⟩⟩
      ([1, 0, 0, 0, 0, 0, 0, 0, 0, 0, 0, 0, 12, 0] ++
      List.replicate 26 0 ++ [0, 0, 0x53, 0, 0, 0, 0, 0, 0, 0, 0, 24]) 0 rfl
      (by decide)).2.1⟩

/-- Claim C4: after advancing the cursor by `block_length + 2`, the segment
is marked exhausted exactly when the cursor is at least `payload_len + 40`,
with `payload_len` taken from the segment's transport header.  Refuted:
the code compares the cursor against `packet_len_`, the actual byte length
of the packet payload, not against the header-declared length.  Here a
50-byte packet declares `payload_len = 20` (so `payload_len + 40 = 60`):
after one 8-byte block the cursor is 50, the code marks the segment
exhausted (`cur = none`), yet 50 < 60, so the claim's condition says the
segment should still be active. -/
theorem C4_counterexample :
    (GetNextMessage ⟨[[1, 0, 0, 0, 0, 0, 0, 0, 0, 0, 0, 0, 20, 0] ++
        List.replicate 26 0 ++ [8, 0, 1, 0, 0, 0, 0, 0, 0, 0]], none, 40,
        ⟨0, 0, 0, 0, 0, 0, 0, 0, 0⟩⟩).2.2.cur = none ∧
    (GetNextMessage ⟨[[1, 0, 0, 0, 0, 0, 0, 0, 0, 0, 0, 0, 20, 0] ++
        List.replicate 26 0 ++ [8, 0, 1, 0, 0, 0, 0, 0, 0, 0]], none, 40,
        ⟨0, 0, 0, 0, 0, 0, 0, 0, 0⟩⟩).2.2.lastHeader.payload_len = 20 ∧
    (GetNextMessage ⟨[[1, 0, 0, 0, 0, 0, 0, 0, 0, 0, 0, 0, 20, 0] ++
        List.replicate 26 0 ++ [8, 0, 1, 0, 0, 0, 0, 0, 0, 0]], none, 40,
        ⟨0, 0, 0, 0, 0, 0, 0, 0, 0⟩⟩).2.2.blockOffset = 50 ∧
    50 < 20 + 40 := by decide

/-- Claim C4 (amended): after `GetNextMessage` advances the cursor by
`block_length + 2`, the segment is marked exhausted exactly when the
cursor has reached `packet_len_`, the actual byte length of the packet
payload; this coincides with the claim's `payload_len + 40` only when the
packet's actual length equals the header-declared `payload_len + 40`. -/
theorem C4_exhaustion_by_packet_len (s : DecoderState) (p : List ℕ) (bl : ℕ)
    (hcur : s.cur = some p) (hbl : readLE 2 p s.blockOffset = some bl) :
    ((GetNextMessage s).2.2.cur = none ↔ p.length ≤ s.blockOffset + bl + 2) ∧
    (p.length = s.lastHeader.payload_len + 40 →
      ((GetNextMessage s).2.2.cur = none ↔
        s.lastHeader.payload_len + 40 ≤ s.blockOffset + bl + 2)) := by
  have h := (GetNextMessage_active_advance s p bl hcur hbl).2.2
  exact ⟨h, fun hlen => by rw [h, hlen]⟩

/-- Concrete instance of `C4_exhaustion_by_packet_len` on a well-formed
52-byte packet whose header declares `payload_len = 12`. -/
theorem C4_exhaustion_by_packet_len_witness :
    ((GetNextMessage ⟨[], some ([1, 0, 0, 0, 0, 0, 0, 0, 0, 0, 0, 0, 12, 0] ++
        List.replicate 26 0 ++ [0, 0, 0x53, 0, 0, 0, 0, 0, 0, 0, 0, 24]), 40,
        ⟨1, 0, 0, 0, 12, 0, 0, 0, 0⟩⟩).2.2.cur = none ↔
      ([1, 0, 0, 0, 0, 0, 0, 0, 0, 0, 0, 0, 12, 0] ++
        List.replicate 26 0 ++ [0, 0, 0x53, 0, 0, 0, 0, 0, 0, 0, 0, 24]).length ≤
        40 + 0 + 2) ∧
    (([1, 0, 0, 0, 0, 0, 0, 0, 0, 0, 0, 0, 12, 0] ++
        List.replicate 26 0 ++ [0, 0, 0x53, 0, 0, 0, 0, 0, 0, 0, 0, 24]).length =
        (⟨1, 0, 0, 0, 12, 0, 0, 0, 0⟩ : IEXTPHeader).payload_len + 40 →
      ((GetNextMessage ⟨[], some ([1, 0, 0, 0, 0, 0, 0, 0, 0, 0, 0, 0, 12, 0] ++
          List.replicate 26 0 ++ [0, 0, 0x53, 0, 0, 0, 0, 0, 0, 0, 0, 24]), 40,
          ⟨1, 0, 0, 0, 12, 0, 0, 0, 0⟩⟩).2.2.cur = none ↔
        (⟨1, 0, 0, 0, 12, 0, 0, 0, 0⟩ : IEXTPHeader).payload_len + 40 ≤
          40 + 0 + 2)) :=
  C4_exhaustion_by_packet_len
    ⟨[], some ([1, 0, 0, 0, 0, 0, 0, 0, 0, 0, 0, 0, 12, 0] ++
      List.replicate 26 0 ++ [0, 0, 0x53, 0, 0, 0, 0, 0, 0, 0, 0, 24]), 40,
      ⟨1, 0, 0, 0, 12, 0, 0, 0, 0⟩⟩
    ([1, 0, 0, 0, 0, 0, 0, 0, 0, 0, 0, 0, 12, 0] ++
      List.replicate 26 0 ++ [0, 0, 0x53, 0, 0, 0, 0, 0, 0, 0, 0, 24]) 0
    rfl (by decide)

/-- Claim C5: a block whose 2-byte length prefix decodes to zero makes
`GetNextMessage` return a malformed-block error instead of dispatching the
block's message data.  Refuted: the code has no zero-length check (and no
malformed-block return code exists); on this packet the zero-length block
at cursor 40 is dispatched as usual and its SystemEvent message data is
decoded successfully. -/
theorem C5_counterexample :
    (GetNextMessage ⟨[[1, 0, 0, 0, 0, 0, 0, 0, 0, 0, 0, 0, 12, 0] ++
        List.replicate 26 0 ++ [0, 0, 0x53, 0, 0, 0, 0, 0, 0, 0, 0, 24]],
        none, 40, ⟨0, 0, 0, 0, 0, 0, 0, 0, 0⟩⟩).1 = RC.success ∧
    (GetNextMessage ⟨[[1, 0, 0, 0, 0, 0, 0, 0, 0, 0, 0, 0, 12, 0] ++
        List.replicate 26 0 ++ [0, 0, 0x53, 0, 0, 0, 0, 0, 0, 0, 0, 24]],
        none, 40, ⟨0, 0, 0, 0, 0, 0, 0, 0, 0⟩⟩).2.1 =
      some (.systemEvent 0 1729382256910270464) := by decide

/-- Claim C5 (amended): the decoder does not special-case a zero-length
block: it advances the cursor by exactly 2 and dispatches the byte after
the length prefix through the factory as for any other block (the
`ReturnCode` enumeration has no malformed-block error at all); an unknown
tag gives the unknown-message-type error, a known tag has its variant
decoded. -/
theorem C5_zero_block (s : DecoderState) (p : List ℕ)
    (hcur : s.cur = some p) (hbl : readLE 2 p s.blockOffset = some 0) :
    (GetNextMessage s).2.2.blockOffset = s.blockOffset + 2 ∧
    (GetNextMessage s).1 ≠ RC.endOfStream ∧
    (∀ t, p[s.blockOffset + 2]? = some t → IEXMessageFactory t = none →
      (GetNextMessage s).1 = RC.unknownMessageType) ∧
    (∀ t k m ok, p[s.blockOffset + 2]? = some t →
      IEXMessageFactory t = some k →
      decodeKind k p (s.blockOffset + 2) = some (m, ok) →
      (GetNextMessage s).1 =
        (if ok then RC.success else RC.failedDecodingPacket) ∧
      (GetNextMessage s).2.1 = some m) := by
  obtain ⟨hadv, hrc, -⟩ := GetNextMessage_active_advance s p 0 hcur hbl
  refine ⟨by omega, hrc, ?_, ?_⟩
  · intro t htag hfac
    simp only [GetNextMessage, hcur, decodeCurrentBlock, hbl, htag, hfac]
  · intro t k m ok htag hfac hdk
    simp only [GetNextMessage, hcur, decodeCurrentBlock, hbl, htag, hfac, hdk]
    cases ok <;> exact ⟨rfl, rfl⟩

/-- Concrete instance of `C5_zero_block`: the zero-length block at cursor
40 dispatches the following SystemEvent bytes and succeeds. -/
theorem C5_zero_block_witness :
    (GetNextMessage ⟨[], some ([1, 0, 0, 0, 0, 0, 0, 0, 0, 0, 0, 0, 12, 0] ++
        List.replicate 26 0 ++ [0, 0, 0x53, 0, 0, 0, 0, 0, 0, 0, 0, 24]), 40,
        ⟨1, 0, 0, 0, 12, 0, 0, 0, 0⟩⟩).2.2.blockOffset = 40 + 2 ∧
    (GetNextMessage ⟨[], some ([1, 0, 0, 0, 0, 0, 0, 0, 0, 0, 0, 0, 12, 0] ++
        List.replicate 26 0 ++ [0, 0, 0x53, 0, 0, 0, 0, 0, 0, 0, 0, 24]), 40,
        ⟨1, 0, 0, 0, 12, 0, 0, 0, 0⟩⟩).1 ≠ RC.endOfStream :=
  ⟨(C5_zero_block ⟨[], some ([1, 0, 0, 0, 0, 0, 0, 0, 0, 0, 0, 0, 12, 0] ++
      List.replicate 26 0 ++ [0, 0, 0x53, 0, 0, 0, 0, 0, 0, 0, 0, 24]), 40,
      ⟨1, 0, 0, 0, 12, 0, 0, 0, 0⟩⟩
      ([1, 0, 0, 0, 0, 0, 0, 0, 0, 0, 0, 0, 12, 0] ++
      List.replicate 26 0 ++ [0, 0, 0x53, 0, 0, 0, 0, 0, 0, 0, 0, 24])
      rfl (by decide)).1,
   (C5_zero_block ⟨[], some ([1, 0, 0, 0, 0, 0, 0, 0, 0, 0, 0, 0, 12, 0] ++
      List.replicate 26 0 ++ [0, 0, 0x53, 0, 0, 0, 0, 0, 0, 0, 0, 24]), 40,
      ⟨1, 0, 0, 0, 12, 0, 0, 0, 0⟩⟩
      ([1, 0, 0, 0, 0, 0, 0, 0, 0, 0, 0, 0, 12, 0] ++
      List.replicate 26 0 ++ [0, 0, 0x53, 0, 0, 0, 0, 0, 0, 0, 0, 24])
      rfl (by decide)).2.1⟩

/-- Claim C6: a block whose first message-data byte is not one of the 13
known tags makes `GetNextMessage` return the unknown-message-type error
with the cursor already advanced past that block by its declared length
plus the 2-byte prefix, so the immediately following call returns the next
block's message — a single unknown tag does not poison the stream. -/
theorem C6_unknown_tag_recoverable (s : DecoderState) (p : List ℕ)
    (bl t : ℕ) (hcur : s.cur = some p)
    (hbl : readLE 2 p s.blockOffset = some bl)
    (htag : p[s.blockOffset + 2]? = some t)
    (hunk : IEXMessageFactory t = none)
    (hnotend : s.blockOffset + bl + 2 < p.length) :
    GetNextMessage s = (RC.unknownMessageType, none,
      { s with blockOffset := s.blockOffset + bl + 2 }) ∧
    (∀ bl2 t2 k2 m2,
      readLE 2 p (s.blockOffset + bl + 2) = some bl2 →
      p[s.blockOffset + bl + 2 + 2]? = some t2 →
      IEXMessageFactory t2 = some k2 →
      decodeKind k2 p (s.blockOffset + bl + 2 + 2) = some (m2, true) →
      (GetNextMessage
        { s with blockOffset := s.blockOffset + bl + 2 }).1 = RC.success ∧
      (GetNextMessage
        { s with blockOffset := s.blockOffset + bl + 2 }).2.1 = some m2) := by
  constructor
  · simp only [GetNextMessage, hcur, decodeCurrentBlock, hbl, htag, hunk]
    rw [if_neg (by omega)]
  · intro bl2 t2 k2 m2 hbl2 htag2 hfac2 hdk2
    simp only [GetNextMessage, hcur, decodeCurrentBlock, hbl2, htag2,
      hfac2, hdk2, if_true, eq_self_iff_true]
    exact ⟨by trivial, by trivial⟩

/-- Concrete instance of `C6_unknown_tag_recoverable`: after the unknown
tag 0x10 is skipped, the following call decodes the next block's
SystemEvent message. -/
theorem C6_unknown_tag_recoverable_witness :
    (GetNextMessage { (⟨[], some ([1, 0, 0, 0, 0, 0, 0, 0, 0, 0, 0, 0, 19, 0] ++
        List.replicate 26 0 ++
        [5, 0, 16, 0, 0, 0, 0, 10, 0, 0x53, 7, 0, 0, 0, 0, 0, 0, 0, 24]), 40,
        ⟨1, 0, 0, 0, 19, 0, 0, 0, 0⟩⟩ : DecoderState) with
        blockOffset := 40 + 5 + 2 }).1 = RC.success ∧
    (GetNextMessage { (⟨[], some ([1, 0, 0, 0, 0, 0, 0, 0, 0, 0, 0, 0, 19, 0] ++
        List.replicate 26 0 ++
        [5, 0, 16, 0, 0, 0, 0, 10, 0, 0x53, 7, 0, 0, 0, 0, 0, 0, 0, 24]), 40,
        ⟨1, 0, 0, 0, 19, 0, 0, 0, 0⟩⟩ : DecoderState) with
        blockOffset := 40 + 5 + 2 }).2.1 =
      some (.systemEvent 7 1729382256910270464) :=
  (C6_unknown_tag_recoverable
    ⟨[], some ([1, 0, 0, 0, 0, 0, 0, 0, 0, 0, 0, 0, 19, 0] ++
      List.replicate 26 0 ++
      [5, 0, 16, 0, 0, 0, 0, 10, 0, 0x53, 7, 0, 0, 0, 0, 0, 0, 0, 24]), 40,
      ⟨1, 0, 0, 0, 19, 0, 0, 0, 0⟩⟩
    ([1, 0, 0, 0, 0, 0, 0, 0, 0, 0, 0, 0, 19, 0] ++
      List.replicate 26 0 ++
      [5, 0, 16, 0, 0, 0, 0, 10, 0, 0x53, 7, 0, 0, 0, 0, 0, 0, 0, 24])
    5 16 rfl (by decide) (by decide) (by decide) (by decide)).2
    10 0x53 .sysEvent (.systemEvent 7 1729382256910270464)
    (by decide) (by decide) (by decide) (by decide)
